import Mathlib

/-
Verification of the chunked timeseries export core of tb-download.

The embedded code is `TBDownload.get_timeseries` and `TBDownload.save_timeseries`
from `src/tb_download/client.py` (duplicated verbatim in `src/tb-download.py`).
Modelling choices:

* Instants are naturals (the script compares and adds `datetime` values; only
  `+` and `≤` occur in the loop, so any linearly ordered additive carrier is
  faithful; witnesses use epoch seconds).  The fixed chunk size `delta`
  (3 hours in the script) is a parameter `δ`.
* The two external collaborators are parameters: `keys` is the result of the
  signal-key listing request, and `fetch s e` is the raw JSON body returned by
  the telemetry request for the window `[s, e)` — `Except.error ()` models a
  `requests.RequestException` (which `_get` turns into `sys.exit(1)`),
  `Except.ok resp` models a 2xx response whose parsed body is `resp`, an
  insertion-ordered association list from signal key to its records.
* `get_timeseries` keeps its source name and covers the post-fetch part of the
  Python function: empty body ⇒ `None` ("no data"), otherwise the pandas merge
  `pd.concat(dfs, join="outer", axis=1)` of the per-key sorted single-column
  frames, modelled by `get_timeseries_merge`.
* Each `df.to_csv(filename, mode="a" if append else "w", columns=keys,
  header=not append)` call is one `WriteEvent`; `applyEvent` gives its effect
  on the target file (`none` = the file does not exist).  The while loop is
  `saveLoop`, written with a fuel argument large enough to cover every
  iteration of the source loop (the source loop always terminates when δ > 0).
* `processWindows` re-expresses the same loop as a fold over the list of
  windows produced by the Window Iterator; `saveLoop_eq_processWindows` proves
  the two agree, so claims can be settled by list induction.
-/

/-- Parsed JSON body of the telemetry request: an insertion-ordered mapping
from signal key to its list of (ts, value) records, as produced by `r.json()`. -/
abbrev Resp := List (String × List (Nat × String))

/-- A pandas-style wide table: named columns, and timestamp-indexed rows with
one optional cell per column (`none` models a NaN / absent cell). -/
structure Table where
  cols : List String
  rows : List (Nat × List (Option String))
deriving DecidableEq

/-- Insert one (ts, value) record into a ts-sorted series, after any record
with a smaller-or-equal ts (stable insertion). -/
def insertByTs (p : Nat × String) : List (Nat × String) → List (Nat × String)
  | [] => [p]
  | q :: qs => if q.1 ≤ p.1 then q :: insertByTs p qs else p :: q :: qs

/-- Sort a series by ascending timestamp: models `df.sort_index()`. -/
def sortByTs : List (Nat × String) → List (Nat × String)
  | [] => []
  | p :: ps => insertByTs p (sortByTs ps)

/-- Insert a timestamp into a sorted duplicate-free index. -/
def insertTs (t : Nat) : List Nat → List Nat
  | [] => [t]
  | u :: us =>
    if t = u then u :: us
    else if t < u then t :: u :: us
    else u :: insertTs t us

/-- Sorted duplicate-free union of a bag of timestamps: the row index that
`pd.concat(axis=1, join="outer")` builds from the per-signal sorted indexes. -/
def unionTs : List Nat → List Nat
  | [] => []
  | t :: rest => insertTs t (unionTs rest)

/-- Merge step of `TBDownload.get_timeseries`: one ts-sorted single-column
frame per response key (in response order), outer-joined on the ts index. -/
def get_timeseries_merge (resp : Resp) : Table :=
  let dfs := resp.map (fun kv => (kv.1, sortByTs kv.2))
  let idx := unionTs (dfs.map (fun kv => kv.2.map Prod.fst)).flatten
  ⟨dfs.map Prod.fst,
   idx.map (fun t => (t, dfs.map (fun kv => List.lookup t kv.2)))⟩

/-- `TBDownload.get_timeseries` after the HTTP fetch: `if not r.json(): return
None` (an empty body is "no data"), otherwise the merged wide table. -/
def get_timeseries (resp : Resp) : Option Table :=
  if resp = [] then none else some (get_timeseries_merge resp)

/-- Column selection done by `df.to_csv(..., columns=keys)`: exactly the
requested keys, in the requested order.  If any requested key is missing from
the frame's columns, pandas raises `KeyError` (the spec's fatal SchemaDrift:
missing columns are not backfilled), modelled as `none`. -/
def restrictCols (keys : List String) (t : Table) : Option Table :=
  if keys.all (fun k => t.cols.contains k) then
    some ⟨keys,
      t.rows.map (fun r => (r.1, keys.map (fun k => (List.lookup k (t.cols.zip r.2)).join)))⟩
  else none

/-- One `df.to_csv(filename, mode="a" if append else "w", columns=keys,
header=not append)` call: an independent open-write-close cycle against the
target file. -/
structure WriteEvent where
  append : Bool
  header : Bool
  table : Table
deriving DecidableEq

/-- CSV cell text: an absent value renders as the empty string. -/
def renderCell : Option String → String
  | none => ""
  | some v => v

/-- One CSV data line: the ts index first, then the cells, comma separated. -/
def renderRow (r : Nat × List (Option String)) : String :=
  String.intercalate "," (toString r.1 :: r.2.map renderCell)

/-- Lines produced by one `to_csv` call: an optional header line (the index
name `ts` then the column names), then one line per row. -/
def renderLines (hdr : Bool) (t : Table) : List String :=
  (if hdr then [String.intercalate "," ("ts" :: t.cols)] else []) ++ t.rows.map renderRow

/-- Effect of one `to_csv` call on the target file (`none` = no file yet):
mode "w" creates/truncates, mode "a" appends, creating the file if missing. -/
def applyEvent (file : Option (List String)) (ev : WriteEvent) : Option (List String) :=
  if ev.append then some (file.getD [] ++ renderLines ev.header ev.table)
  else some (renderLines ev.header ev.table)

/-- Target file content after a sequence of `to_csv` calls. -/
def fileAfter (events : List WriteEvent) (file : Option (List String)) : Option (List String) :=
  events.foldl applyEvent file

/-- How an export call dies, with the window it was processing: `transport`
is a `requests` exception during the chunk fetch (`_get` prints it and calls
`sys.exit(1)`); `schemaDrift` is the `KeyError` that
`df.to_csv(..., columns=keys)` raises when the merged frame lacks one of the
requested keys (an uncaught exception that kills the script there). -/
inductive ExportFailure where
  | transport (w : Nat × Nat)
  | schemaDrift (w : Nat × Nat)
deriving DecidableEq

/-- Outcome of one `save_timeseries` call: the `to_csv` calls it performed in
order, the failure that stopped the loop (if any), and the final value of the
`append` flag. -/
structure ExportRun where
  events : List WriteEvent
  failed : Option ExportFailure
  append : Bool
deriving DecidableEq

/-- Window Iterator: the `(interval_start, interval_end)` pairs the while loop
generates — `interval_end = interval_start + delta`, cursor advances to
`interval_end`, loop runs while the cursor is `≤ end_date`.  `fuel` bounds the
number of iterations; `windows` supplies enough fuel for any positive δ. -/
def windowsIter : Nat → Nat → Nat → Nat → List (Nat × Nat)
  | 0, _, _, _ => []
  | fuel + 1, s, e, δ =>
    if s ≤ e then (s, s + δ) :: windowsIter fuel (s + δ) e δ else []

/-- The full window sequence of one `save_timeseries` call. -/
def windows (s e δ : Nat) : List (Nat × Nat) :=
  windowsIter ((e + 1 - s) / δ + 1) s e δ

/-- Number of iterations of the source loop: one per cursor position
`s, s + δ, s + 2δ, …` that is still `≤ e`. -/
def numChunks (s e δ : Nat) : Nat :=
  if s ≤ e then (e - s) / δ + 1 else 0

/-- The while loop of `TBDownload.save_timeseries`: take the next window,
advance the cursor, fetch, skip on "no data", otherwise write the chunk
restricted to the listed keys and raise the `append` flag.  A fetch error
aborts the call at that window; so does a `KeyError` from the column
selection when the merged chunk lacks a requested key. -/
def saveLoop (fetch : Nat → Nat → Except Unit Resp) (keys : List String) :
    Nat → Nat → Nat → Nat → Bool → ExportRun
  | 0, _, _, _, ap => ⟨[], none, ap⟩
  | fuel + 1, s, e, δ, ap =>
    if s ≤ e then
      match fetch s (s + δ) with
      | Except.error _ => ⟨[], some (ExportFailure.transport (s, s + δ)), ap⟩
      | Except.ok resp =>
        match get_timeseries resp with
        | none => saveLoop fetch keys fuel (s + δ) e δ ap
        | some df =>
          match restrictCols keys df with
          | none => ⟨[], some (ExportFailure.schemaDrift (s, s + δ)), ap⟩
          | some tbl =>
            let rest := saveLoop fetch keys fuel (s + δ) e δ true
            ⟨⟨ap, !ap, tbl⟩ :: rest.events, rest.failed, rest.append⟩
    else ⟨[], none, ap⟩

/-- `TBDownload.save_timeseries` with its two collaborators abstracted:
`keys` is the signal-key listing (`if not keys: return` writes nothing) and
`fetch` answers each telemetry request.  `δ` is the fixed chunk size. -/
def save_timeseries (keys : List String) (fetch : Nat → Nat → Except Unit Resp)
    (s e δ : Nat) : ExportRun :=
  if keys = [] then ⟨[], none, false⟩
  else saveLoop fetch keys ((e + 1 - s) / δ + 1) s e δ false

/-- The same export loop, re-expressed as a fold over an explicit window list
(proved equal to `saveLoop` on the Window Iterator output). -/
def processWindows (fetch : Nat → Nat → Except Unit Resp) (keys : List String) :
    List (Nat × Nat) → Bool → ExportRun
  | [], ap => ⟨[], none, ap⟩
  | w :: ws, ap =>
    match fetch w.1 w.2 with
    | Except.error _ => ⟨[], some (ExportFailure.transport w), ap⟩
    | Except.ok resp =>
      match get_timeseries resp with
      | none => processWindows fetch keys ws ap
      | some df =>
        match restrictCols keys df with
        | none => ⟨[], some (ExportFailure.schemaDrift w), ap⟩
        | some tbl =>
          let rest := processWindows fetch keys ws true
          ⟨⟨ap, !ap, tbl⟩ :: rest.events, rest.failed, rest.append⟩

/-- Sequencing of export runs: a failed first part short-circuits, otherwise
the second part continues from the final `append` flag of the first. -/
def seqRun (r : ExportRun) (f : Bool → ExportRun) : ExportRun :=
  match r.failed with
  | some _ => r
  | none => ⟨r.events ++ (f r.append).events, (f r.append).failed, (f r.append).append⟩

/-- File system after one export call aimed at `filename`: only the target
file is touched, by the run's write events in order. -/
def export_to (fs : String → Option (List String)) (filename : String)
    (run : ExportRun) : String → Option (List String) :=
  fun name => if name = filename then fileAfter run.events (fs name) else fs name

/-- A collaborator whose every telemetry answer is the empty body ("no data"). -/
def fetchEmpty : Nat → Nat → Except Unit Resp :=
  fun _ _ => Except.ok []

/-- A collaborator answering every telemetry request with one record for key
"a". -/
def fetchOne : Nat → Nat → Except Unit Resp :=
  fun _ _ => Except.ok [("a", [(0, "1.0")])]

/-- A collaborator that answers the window starting at 0 with data, fails at
the window starting at 3, and reports "no data" elsewhere. -/
def fetchFailAt3 : Nat → Nat → Except Unit Resp :=
  fun a _ =>
    if a = 0 then Except.ok [("a", [(0, "1.0")])]
    else if a = 3 then Except.error ()
    else Except.ok []

theorem numChunks_succ {s e δ : Nat} (hδ : 1 ≤ δ) (hse : s ≤ e) :
    numChunks s e δ = numChunks (s + δ) e δ + 1 := by
  by_cases h : s + δ ≤ e
  · have hle : δ ≤ e - s := by omega
    have hdiv := Nat.div_eq_sub_div (by omega : 0 < δ) hle
    have h2 : e - (s + δ) = e - s - δ := by omega
    rw [numChunks, numChunks, if_pos hse, if_pos h, h2]
    omega
  · have hlt : e - s < δ := by omega
    simp [numChunks, hse, h, Nat.div_eq_of_lt hlt]

theorem windowsIter_closed {e δ : Nat} (hδ : 1 ≤ δ) :
    ∀ fuel s, numChunks s e δ ≤ fuel →
      windowsIter fuel s e δ =
        (List.range (numChunks s e δ)).map (fun i => (s + i * δ, s + i * δ + δ)) := by
  intro fuel
  induction fuel with
  | zero =>
    intro s h
    have h0 : numChunks s e δ = 0 := Nat.le_zero.mp h
    simp [windowsIter, h0]
  | succ n ih =>
    intro s h
    by_cases hse : s ≤ e
    · have hsucc := numChunks_succ hδ hse
      have hn : numChunks (s + δ) e δ ≤ n := by omega
      rw [windowsIter, if_pos hse, ih (s + δ) hn, hsucc, List.range_succ_eq_map]
      simp only [List.map_cons, List.map_map]
      congr 1
      · simp
      · apply List.map_congr_left
        intro i _
        simp only [Function.comp, Prod.mk.injEq, Nat.succ_eq_add_one]
        constructor <;> ring
    · have h0 : numChunks s e δ = 0 := by simp [numChunks, hse]
      simp [windowsIter, hse, h0]

theorem windows_eq {s e δ : Nat} (hδ : 1 ≤ δ) :
    windows s e δ =
      (List.range (numChunks s e δ)).map (fun i => (s + i * δ, s + i * δ + δ)) := by
  apply windowsIter_closed hδ
  by_cases hse : s ≤ e
  · have : (e - s) / δ ≤ (e + 1 - s) / δ := Nat.div_le_div_right (by omega)
    simp [numChunks, hse]
    omega
  · simp [numChunks, hse]

theorem windows_length {s e δ : Nat} (hδ : 1 ≤ δ) :
    (windows s e δ).length = numChunks s e δ := by
  rw [windows_eq hδ]; simp

theorem windows_get {s e δ : Nat} (hδ : 1 ≤ δ) (i : Nat)
    (h : i < (windows s e δ).length) :
    (windows s e δ).get ⟨i, h⟩ = (s + i * δ, s + i * δ + δ) := by
  have hlen := windows_length (s := s) (e := e) hδ
  have hi : i < numChunks s e δ := hlen ▸ h
  rw [List.get_eq_getElem]
  simp only [windows_eq hδ]
  rw [List.getElem_map]
  · simp

theorem saveLoop_eq_processWindows (fetch : Nat → Nat → Except Unit Resp)
    (keys : List String) :
    ∀ fuel s e δ ap,
      saveLoop fetch keys fuel s e δ ap =
        processWindows fetch keys (windowsIter fuel s e δ) ap := by
  intro fuel
  induction fuel with
  | zero => intro s e δ ap; simp [saveLoop, windowsIter, processWindows]
  | succ n ih =>
    intro s e δ ap
    by_cases hse : s ≤ e
    · rw [saveLoop, windowsIter, if_pos hse, if_pos hse, processWindows]
      cases hf : fetch s (s + δ) with
      | error u => rfl
      | ok resp =>
        cases hg : get_timeseries resp with
        | none => simp only [ih]
        | some df =>
          cases hr : restrictCols keys df with
          | none => simp only [hg, hr]
          | some tbl => simp only [ih]
    · rw [saveLoop, windowsIter, if_neg hse, if_neg hse]; rfl

theorem save_timeseries_eq (keys : List String) (fetch : Nat → Nat → Except Unit Resp)
    (s e δ : Nat) (hk : keys ≠ []) :
    save_timeseries keys fetch s e δ = processWindows fetch keys (windows s e δ) false := by
  rw [save_timeseries, if_neg hk, windows, saveLoop_eq_processWindows]

theorem processWindows_events_all_append (fetch : Nat → Nat → Except Unit Resp)
    (keys : List String) :
    ∀ ws : List (Nat × Nat), ∀ ev ∈ (processWindows fetch keys ws true).events,
      ev.append = true ∧ ev.header = false := by
  intro ws
  induction ws with
  | nil => intro ev h; simp [processWindows] at h
  | cons w ws ih =>
    intro ev h
    cases hf : fetch w.1 w.2 with
    | error u => simp [processWindows, hf] at h
    | ok resp =>
      cases hg : get_timeseries resp with
      | none =>
        simp only [processWindows, hf, hg] at h
        exact ih ev h
      | some df =>
        cases hr : restrictCols keys df with
        | none => simp [processWindows, hf, hg, hr] at h
        | some tbl =>
          simp only [processWindows, hf, hg, hr, List.mem_cons] at h
          cases h with
          | inl h => subst h; exact ⟨rfl, rfl⟩
          | inr h => exact ih ev h

theorem processWindows_events_head (fetch : Nat → Nat → Except Unit Resp)
    (keys : List String) :
    ∀ (ws : List (Nat × Nat)) (ap : Bool) (ev : WriteEvent),
      (processWindows fetch keys ws ap).events.head? = some ev →
      ev.append = ap ∧ ev.header = !ap := by
  intro ws
  induction ws with
  | nil => intro ap ev h; simp [processWindows] at h
  | cons w ws ih =>
    intro ap ev h
    cases hf : fetch w.1 w.2 with
    | error u => simp [processWindows, hf] at h
    | ok resp =>
      cases hg : get_timeseries resp with
      | none =>
        simp only [processWindows, hf, hg] at h
        exact ih ap ev h
      | some df =>
        cases hr : restrictCols keys df with
        | none => simp [processWindows, hf, hg, hr] at h
        | some tbl =>
          simp only [processWindows, hf, hg, hr, List.head?_cons, Option.some.injEq] at h
          subst h
          exact ⟨rfl, rfl⟩

theorem processWindows_events_tail (fetch : Nat → Nat → Except Unit Resp)
    (keys : List String) :
    ∀ ws : List (Nat × Nat), ∀ ev ∈ (processWindows fetch keys ws false).events.tail,
      ev.append = true ∧ ev.header = false := by
  intro ws
  induction ws with
  | nil => intro ev h; simp [processWindows] at h
  | cons w ws ih =>
    intro ev h
    cases hf : fetch w.1 w.2 with
    | error u => simp [processWindows, hf] at h
    | ok resp =>
      cases hg : get_timeseries resp with
      | none =>
        simp only [processWindows, hf, hg] at h
        exact ih ev h
      | some df =>
        cases hr : restrictCols keys df with
        | none => simp [processWindows, hf, hg, hr] at h
        | some tbl =>
          simp only [processWindows, hf, hg, hr, List.tail_cons] at h
          exact processWindows_events_all_append fetch keys ws ev h

theorem processWindows_nodata_skip (fetch : Nat → Nat → Except Unit Resp)
    (keys : List String) (w : Nat × Nat) (ws : List (Nat × Nat)) (ap : Bool)
    (hf : fetch w.1 w.2 = Except.ok []) :
    processWindows fetch keys (w :: ws) ap = processWindows fetch keys ws ap := by
  simp [processWindows, hf, get_timeseries]

theorem processWindows_all_nodata (fetch : Nat → Nat → Except Unit Resp)
    (keys : List String) :
    ∀ (ws : List (Nat × Nat)) (ap : Bool),
      (∀ w ∈ ws, fetch w.1 w.2 = Except.ok []) →
      processWindows fetch keys ws ap = ⟨[], none, ap⟩ := by
  intro ws
  induction ws with
  | nil => intro ap _; rfl
  | cons w ws ih =>
    intro ap h
    rw [processWindows_nodata_skip fetch keys w ws ap (h w (List.mem_cons_self w ws))]
    exact ih ap (fun v hv => h v (List.mem_cons_of_mem w hv))

theorem processWindows_ok_failed_none (fetch : Nat → Nat → Except Unit Resp)
    (keys : List String) :
    ∀ (ws : List (Nat × Nat)) (ap : Bool),
      (∀ w ∈ ws, ∃ resp, fetch w.1 w.2 = Except.ok resp ∧
        ∀ df, get_timeseries resp = some df → (restrictCols keys df).isSome = true) →
      (processWindows fetch keys ws ap).failed = none := by
  intro ws
  induction ws with
  | nil => intro ap _; rfl
  | cons w ws ih =>
    intro ap h
    obtain ⟨resp, hresp, hdrift⟩ := h w (List.mem_cons_self w ws)
    have hrest := fun b => ih b (fun v hv => h v (List.mem_cons_of_mem w hv))
    cases hg : get_timeseries resp with
    | none => simp only [processWindows, hresp, hg]; exact hrest ap
    | some df =>
      obtain ⟨tbl, htbl⟩ := Option.isSome_iff_exists.mp (hdrift df hg)
      simp only [processWindows, hresp, hg, htbl]
      exact hrest true

theorem processWindows_split (fetch : Nat → Nat → Except Unit Resp)
    (keys : List String) :
    ∀ (xs ys : List (Nat × Nat)) (ap : Bool),
      processWindows fetch keys (xs ++ ys) ap =
        seqRun (processWindows fetch keys xs ap) (processWindows fetch keys ys) := by
  intro xs
  induction xs with
  | nil => intro ys ap; simp [processWindows, seqRun]
  | cons x xs ih =>
    intro ys ap
    rw [List.cons_append]
    cases hf : fetch x.1 x.2 with
    | error u => simp [processWindows, hf, seqRun]
    | ok resp =>
      cases hg : get_timeseries resp with
      | none =>
        simp only [processWindows, hf, hg]
        exact ih ys ap
      | some df =>
        cases hr : restrictCols keys df with
        | none => simp [processWindows, hf, hg, hr, seqRun]
        | some tbl =>
          simp only [processWindows, hf, hg, hr, ih ys true, seqRun]
          cases hfail : (processWindows fetch keys xs true).failed with
          | none => simp [hfail]
          | some w => simp [hfail]

theorem fileAfter_head_truncates :
    ∀ (events : List WriteEvent) (ev : WriteEvent),
      events.head? = some ev → ev.append = false →
      ∀ file file', fileAfter events file = fileAfter events file' := by
  intro events ev hhead hw file file'
  cases events with
  | nil => simp at hhead
  | cons e0 rest =>
    simp only [List.head?_cons, Option.some.injEq] at hhead
    subst hhead
    rw [fileAfter, fileAfter, List.foldl_cons, List.foldl_cons]
    rw [applyEvent, applyEvent, hw]
    simp

theorem windows_mem {s e δ : Nat} (hδ : 1 ≤ δ) {p : Nat × Nat}
    (hp : p ∈ windows s e δ) :
    ∃ i, i < numChunks s e δ ∧ p = (s + i * δ, s + i * δ + δ) := by
  rw [windows_eq hδ] at hp
  simp only [List.mem_map, List.mem_range] at hp
  obtain ⟨i, hi, hpi⟩ := hp
  exact ⟨i, hi, hpi.symm⟩

/-- Claim C1: for every start, end and positive chunk size, the window
sequence is empty exactly when start > end; the first window starts at
`start`; every window's end is its start plus the chunk size; each subsequent
window starts where the previous one ended; every emitted window start is
`≤ end`, and the cursor position after the final window is `> end` (the loop
condition tests the chunk start, so the final window's end may overrun
`end`). -/
theorem c1_window_iterator (s e δ : Nat) (hδ : 1 ≤ δ) :
    (windows s e δ = [] ↔ e < s)
    ∧ (∀ p, (windows s e δ).head? = some p → p.1 = s)
    ∧ (∀ p ∈ windows s e δ, p.2 = p.1 + δ)
    ∧ (∀ i (h : i + 1 < (windows s e δ).length),
        ((windows s e δ).get ⟨i + 1, h⟩).1 =
          ((windows s e δ).get ⟨i, Nat.lt_of_succ_lt h⟩).2)
    ∧ (∀ p ∈ windows s e δ, p.1 ≤ e)
    ∧ e < s + (windows s e δ).length * δ := by
  have hlen := windows_length (s := s) (e := e) (δ := δ) hδ
  refine ⟨⟨?_, ?_⟩, ?_, ?_, ?_, ?_, ?_⟩
  · intro h
    have h0 : numChunks s e δ = 0 := by rw [← hlen, h]; rfl
    by_contra hc
    simp [numChunks, if_pos (by omega : s ≤ e)] at h0
  · intro h
    rw [windows_eq hδ]
    have h0 : numChunks s e δ = 0 := by
      simp only [numChunks, if_neg (by omega : ¬ s ≤ e)]
    rw [h0]
    rfl
  · intro p hp
    rw [windows_eq hδ] at hp
    cases hn : numChunks s e δ with
    | zero => rw [hn] at hp; simp at hp
    | succ m =>
      rw [hn, List.range_succ_eq_map, List.map_cons, List.head?_cons,
          Option.some.injEq] at hp
      subst hp
      simp
  · intro p hp
    obtain ⟨i, hi, rfl⟩ := windows_mem hδ hp
    simp
  · intro i h
    rw [windows_get hδ (i + 1) h, windows_get hδ i (Nat.lt_of_succ_lt h)]
    simp only
    ring
  · intro p hp
    obtain ⟨i, hi, rfl⟩ := windows_mem hδ hp
    simp only
    by_cases hse : s ≤ e
    · have hi2 : i ≤ (e - s) / δ := by
        simp only [numChunks, if_pos hse] at hi
        omega
      have h3 : i * δ ≤ ((e - s) / δ) * δ := Nat.mul_le_mul_right δ hi2
      have h4 : ((e - s) / δ) * δ ≤ e - s := Nat.div_mul_le_self _ _
      omega
    · simp [numChunks, if_neg hse] at hi
  · rw [hlen]
    by_cases hse : s ≤ e
    · have h1 := Nat.div_add_mod (e - s) δ
      have h2 : (e - s) % δ < δ := Nat.mod_lt _ (by omega)
      simp only [numChunks, if_pos hse]
      have h3 : ((e - s) / δ + 1) * δ = δ * ((e - s) / δ) + δ := by ring
      omega
    · simp only [numChunks, if_neg hse]
      omega

/-- Witness for C1 at start 0, end 5, chunk size 2 (three windows
(0,2), (2,4), (4,6)): emptiness characterisation and stop condition hold. -/
theorem c1_window_iterator_witness :
    (1 : Nat) ≤ 2 ∧ (windows 0 5 2 = [] ↔ (5 : Nat) < 0)
    ∧ (5 : Nat) < 0 + (windows 0 5 2).length * 2 :=
  ⟨by decide, (c1_window_iterator 0 5 2 (by decide)).1,
    (c1_window_iterator 0 5 2 (by decide)).2.2.2.2.2⟩

/-- Claim C4 counterexample: for start 0, end 3, chunk size 3 — end − start an
exact positive multiple of the chunk size — the loop produces 2 windows,
while `ceil((end − start) / chunk_size) = (3 − 0 + 3 − 1) / 3 = 1`. -/
theorem c4_ceil_counterexample :
    (windows 0 3 3).length = 2 ∧ (3 - 0 + 3 - 1) / 3 = 1 := by decide

/-- Claim C4 (amended): for start ≤ end and positive chunk size the Window
Iterator produces `(end − start) / chunk_size + 1` pairs (floor division);
this equals `ceil((end − start) / chunk_size)` except when the chunk size
divides `end − start` exactly (including end = start), where it is one
greater. -/
theorem c4_window_count (s e δ : Nat) (hδ : 1 ≤ δ) (hse : s ≤ e) :
    (windows s e δ).length = (e - s) / δ + 1 := by
  rw [windows_length hδ]
  simp [numChunks, if_pos hse]

/-- Witness for the amended C4 at start 0, end 5, chunk size 2: 3 windows. -/
theorem c4_window_count_witness :
    (1 : Nat) ≤ 2 ∧ (0 : Nat) ≤ 5 ∧ (windows 0 5 2).length = (5 - 0) / 2 + 1 :=
  ⟨by decide, by decide, c4_window_count 0 5 2 (by decide) (by decide)⟩

/-- Claim C5 counterexample: with start 2022-03-01T00:00:00Z (epoch second
1646092800), end 2022-03-02T23:59:59Z (epoch second 1646265599) and one-day
chunks (86400 s), the loop does NOT produce the three pairs day0→day1,
day1→day2, day2→day3: the third pair would start at day2 = 1646265600, which
is already past `end`. -/
theorem c5_three_windows_counterexample :
    windows 1646092800 1646265599 86400 ≠
      [(1646092800, 1646179200), (1646179200, 1646265600),
       (1646265600, 1646352000)] := by decide

/-- Claim C5 (amended): that scenario produces exactly the 2 window pairs
day0→day1 and day1→day2. -/
theorem c5_two_windows :
    windows 1646092800 1646265599 86400 =
      [(1646092800, 1646179200), (1646179200, 1646265600)] := by decide

/-- Claim C8: the i-th iteration's window is
`(start + i·chunk, start + i·chunk + chunk)`, so the cursor advances by
exactly one chunk size per iteration, fixed before any fetch outcome; the
export loop consumes exactly this finite window list for every fetch
collaborator (boundaries are reproducible and the loop terminates); the
iteration count is `numChunks`. -/
theorem c8_cursor_advance (s e δ : Nat) (hδ : 1 ≤ δ) (keys : List String) :
    (∀ i (h : i < (windows s e δ).length),
        (windows s e δ).get ⟨i, h⟩ = (s + i * δ, s + i * δ + δ))
    ∧ (∀ (fetch : Nat → Nat → Except Unit Resp) (ap : Bool),
        saveLoop fetch keys ((e + 1 - s) / δ + 1) s e δ ap =
          processWindows fetch keys (windows s e δ) ap)
    ∧ (windows s e δ).length = numChunks s e δ := by
  refine ⟨fun i h => windows_get hδ i h, fun fetch ap => ?_, windows_length hδ⟩
  rw [windows]
  exact saveLoop_eq_processWindows fetch keys _ s e δ ap

/-- Witness for C8 at start 0, end 5, chunk size 2, with the all-empty
collaborator. -/
theorem c8_cursor_advance_witness :
    (1 : Nat) ≤ 2
    ∧ (windows 0 5 2).get ⟨0, by decide⟩ = (0 + 0 * 2, 0 + 0 * 2 + 2)
    ∧ saveLoop fetchEmpty ["a"] ((5 + 1 - 0) / 2 + 1) 0 5 2 false =
        processWindows fetchEmpty ["a"] (windows 0 5 2) false :=
  ⟨by decide, (c8_cursor_advance 0 5 2 (by decide) ["a"]).1 0 (by decide),
    (c8_cursor_advance 0 5 2 (by decide) ["a"]).2.1 fetchEmpty false⟩

/-- Claim C2: in every export call the first chunk write uses write/truncate
mode with a header row, every later chunk write uses append mode without a
header (each write event being one independent open-write-close `to_csv`
call), and a chunk answered "no data" produces no write and leaves the
header/append flag unchanged. -/
theorem c2_write_discipline (keys : List String)
    (fetch : Nat → Nat → Except Unit Resp) (s e δ : Nat) :
    (∀ ev, (save_timeseries keys fetch s e δ).events.head? = some ev →
        ev.append = false ∧ ev.header = true)
    ∧ (∀ ev ∈ (save_timeseries keys fetch s e δ).events.tail,
        ev.append = true ∧ ev.header = false)
    ∧ (∀ (w : Nat × Nat) (ws : List (Nat × Nat)) (ap : Bool),
        fetch w.1 w.2 = Except.ok [] →
        processWindows fetch keys (w :: ws) ap = processWindows fetch keys ws ap) := by
  by_cases hk : keys = []
  · refine ⟨?_, ?_, fun w ws ap hf => processWindows_nodata_skip fetch keys w ws ap hf⟩
    · intro ev h; rw [save_timeseries, if_pos hk] at h; simp at h
    · intro ev h; rw [save_timeseries, if_pos hk] at h; simp at h
  · refine ⟨?_, ?_, fun w ws ap hf => processWindows_nodata_skip fetch keys w ws ap hf⟩
    · intro ev h
      rw [save_timeseries_eq keys fetch s e δ hk] at h
      have := processWindows_events_head fetch keys (windows s e δ) false ev h
      simpa using this
    · intro ev h
      rw [save_timeseries_eq keys fetch s e δ hk] at h
      exact processWindows_events_tail fetch keys (windows s e δ) ev h

/-- Witness for C2: with the constant-data collaborator over three windows,
the first write event of the run is mode "w" with a header. -/
theorem c2_write_discipline_witness :
    (⟨false, true, ⟨["a"], [(0, [some "1.0"])]⟩⟩ : WriteEvent).append = false
    ∧ (⟨false, true, ⟨["a"], [(0, [some "1.0"])]⟩⟩ : WriteEvent).header = true :=
  (c2_write_discipline ["a"] fetchOne 0 2 1).1
    ⟨false, true, ⟨["a"], [(0, [some "1.0"])]⟩⟩
    (by decide)

/-- Claim C3: if the fetch of the (k+1)-th chunk raises a transport error
while every earlier chunk completed normally (its fetch returned a 2xx body
that was either empty — "no data" — or merged to a frame holding every
requested key, so no earlier `KeyError`), the export aborts at exactly that
window: the transport failure is reported with the failing window attached,
no later chunk is processed, and the write events — hence the output file,
header plus the rows of the chunks written before the failure — are exactly
those produced by the first k windows. -/
theorem c3_fetch_failure_aborts (keys : List String)
    (fetch : Nat → Nat → Except Unit Resp) (s e δ : Nat)
    (hk : keys ≠ []) (k : Nat) (hklen : k < (windows s e δ).length)
    (hpre : ∀ w ∈ (windows s e δ).take k, ∃ resp, fetch w.1 w.2 = Except.ok resp ∧
        ∀ df, get_timeseries resp = some df → (restrictCols keys df).isSome = true)
    (hfail : fetch ((windows s e δ).get ⟨k, hklen⟩).1
        ((windows s e δ).get ⟨k, hklen⟩).2 = Except.error ()) :
    (save_timeseries keys fetch s e δ).failed =
      some (ExportFailure.transport ((windows s e δ).get ⟨k, hklen⟩))
    ∧ (save_timeseries keys fetch s e δ).events =
        (processWindows fetch keys ((windows s e δ).take k) false).events
    ∧ ∀ file, fileAfter (save_timeseries keys fetch s e δ).events file =
        fileAfter (processWindows fetch keys ((windows s e δ).take k) false).events file := by
  have hsplit : windows s e δ =
      (windows s e δ).take k ++
        ((windows s e δ).get ⟨k, hklen⟩ :: (windows s e δ).drop (k + 1)) := by
    rw [List.cons_get_drop_succ]
    exact (List.take_append_drop k _).symm
  have hcons : ∀ b : Bool,
      processWindows fetch keys
        ((windows s e δ).get ⟨k, hklen⟩ :: (windows s e δ).drop (k + 1)) b =
        ⟨[], some (ExportFailure.transport ((windows s e δ).get ⟨k, hklen⟩)), b⟩ := by
    intro b
    simp only [processWindows, hfail]
  have hnone := processWindows_ok_failed_none fetch keys ((windows s e δ).take k) false hpre
  have heq : save_timeseries keys fetch s e δ =
      ⟨(processWindows fetch keys ((windows s e δ).take k) false).events,
        some (ExportFailure.transport ((windows s e δ).get ⟨k, hklen⟩)),
        (processWindows fetch keys ((windows s e δ).take k) false).append⟩ := by
    rw [save_timeseries_eq keys fetch s e δ hk]
    conv_lhs => rw [hsplit]
    rw [processWindows_split fetch keys _ _ false]
    simp only [seqRun, hnone, hcons, List.append_nil]
  refine ⟨?_, ?_, ?_⟩
  · rw [heq]
  · rw [heq]
  · intro file
    rw [heq]

/-- Witness for C3: keys ["a"], three windows (0,3), (3,6), (6,9); a full
chunk of data for key "a" on the first, a transport failure on the second.
The run aborts at (3,6) having written only the first chunk. -/
theorem c3_fetch_failure_aborts_witness :
    (save_timeseries ["a"] fetchFailAt3 0 7 3).failed =
      some (ExportFailure.transport ((windows 0 7 3).get ⟨1, by decide⟩))
    ∧ (save_timeseries ["a"] fetchFailAt3 0 7 3).events =
        (processWindows fetchFailAt3 ["a"] ((windows 0 7 3).take 1) false).events := by
  have h := c3_fetch_failure_aborts ["a"] fetchFailAt3 0 7 3 (by decide) 1 (by decide)
    (by
      intro w hw
      have hw1 : w = (0, 3) := by
        have ht : (windows 0 7 3).take 1 = [(0, 3)] := by decide
        rw [ht] at hw
        simpa using hw
      subst hw1
      refine ⟨[("a", [(0, "1.0")])], rfl, ?_⟩
      intro df hdf
      have hdf2 : df = get_timeseries_merge [("a", [(0, "1.0")])] := by
        simp only [get_timeseries, if_neg (by decide : ¬ ([("a", [(0, "1.0")])] : Resp) = []),
          Option.some.injEq] at hdf
        exact hdf.symm
      subst hdf2
      decide)
    (by rfl)
  exact ⟨h.1, h.2.1⟩

/-- Claim C7: an export call with start > end performs zero loop iterations
(the window list is empty), signals no failure, performs no write, and leaves
any pre-existing file state unchanged. -/
theorem c7_empty_range_noop (keys : List String)
    (fetch : Nat → Nat → Except Unit Resp) (s e δ : Nat) (h : e < s) :
    save_timeseries keys fetch s e δ = ⟨[], none, false⟩
    ∧ windows s e δ = []
    ∧ ∀ file, fileAfter (save_timeseries keys fetch s e δ).events file = file := by
  have hw : windows s e δ = [] := by
    simp only [windows, windowsIter, if_neg (by omega : ¬ s ≤ e)]
  have hsave : save_timeseries keys fetch s e δ = ⟨[], none, false⟩ := by
    by_cases hk : keys = []
    · rw [save_timeseries, if_pos hk]
    · rw [save_timeseries_eq keys fetch s e δ hk, hw]
      rfl
  exact ⟨hsave, hw, fun file => by rw [hsave]; rfl⟩

/-- Witness for C7 at start 5, end 2: no write, and an existing file keeps
its lines. -/
theorem c7_empty_range_noop_witness :
    (2 : Nat) < 5
    ∧ save_timeseries ["a"] fetchEmpty 5 2 1 = ⟨[], none, false⟩
    ∧ fileAfter (save_timeseries ["a"] fetchEmpty 5 2 1).events (some ["old"]) = some ["old"] :=
  ⟨by decide, (c7_empty_range_noop ["a"] fetchEmpty 5 2 1 (by decide)).1,
    (c7_empty_range_noop ["a"] fetchEmpty 5 2 1 (by decide)).2.2 (some ["old"])⟩

/-- Claim C10: with start ≤ end, a non-empty signal-key listing, and every
chunk fetch answering "no data", the export completes without failure and
performs no write event at all — the output file is never opened, created or
truncated, so a pre-existing file keeps its contents. -/
theorem c10_all_nodata_frame (keys : List String)
    (fetch : Nat → Nat → Except Unit Resp) (s e δ : Nat)
    (_hse : s ≤ e) (hk : keys ≠ [])
    (hnd : ∀ w ∈ windows s e δ, fetch w.1 w.2 = Except.ok []) :
    save_timeseries keys fetch s e δ = ⟨[], none, false⟩
    ∧ ∀ file, fileAfter (save_timeseries keys fetch s e δ).events file = file := by
  have hsave : save_timeseries keys fetch s e δ = ⟨[], none, false⟩ := by
    rw [save_timeseries_eq keys fetch s e δ hk]
    exact processWindows_all_nodata fetch keys (windows s e δ) false hnd
  exact ⟨hsave, fun file => by rw [hsave]; rfl⟩

/-- Witness for C10 at start 0, end 5, chunk 2 with the all-empty
collaborator: a pre-existing file keeps its lines. -/
theorem c10_all_nodata_frame_witness :
    (0 : Nat) ≤ 5
    ∧ save_timeseries ["a"] fetchEmpty 0 5 2 = ⟨[], none, false⟩
    ∧ fileAfter (save_timeseries ["a"] fetchEmpty 0 5 2).events (some ["keep"]) = some ["keep"] := by
  have h := c10_all_nodata_frame ["a"] fetchEmpty 0 5 2 (by decide) (by decide)
    (fun w _ => rfl)
  exact ⟨by decide, h.1, h.2 (some ["keep"])⟩

/-- Claim C9: the export run is a pure function of the keys, the collaborator
responses and the window parameters; whenever it writes at all its first
write truncates, so aiming the same export at two different target files in
two different initial file systems leaves byte-identical content in both
target files. -/
theorem c9_deterministic_output (keys : List String)
    (fetch : Nat → Nat → Except Unit Resp) (s e δ : Nat)
    (fs1 fs2 : String → Option (List String)) (f1 f2 : String)
    (hne : (save_timeseries keys fetch s e δ).events ≠ []) :
    export_to fs1 f1 (save_timeseries keys fetch s e δ) f1 =
      export_to fs2 f2 (save_timeseries keys fetch s e δ) f2 := by
  have hk : keys ≠ [] := by
    intro h
    rw [save_timeseries, if_pos h] at hne
    exact hne rfl
  obtain ⟨ev, hev⟩ : ∃ ev, (save_timeseries keys fetch s e δ).events.head? = some ev := by
    cases hevs : (save_timeseries keys fetch s e δ).events with
    | nil => exact absurd hevs hne
    | cons a l => exact ⟨a, rfl⟩
  have hap : ev.append = false := by
    rw [save_timeseries_eq keys fetch s e δ hk] at hev
    exact (processWindows_events_head fetch keys (windows s e δ) false ev hev).1
  simp only [export_to, if_pos rfl]
  exact fileAfter_head_truncates _ ev hev hap _ _

/-- Witness for C9: one data window, a missing target versus a target holding
junk, two different file names — identical resulting content. -/
theorem c9_deterministic_output_witness :
    export_to (fun _ => none) "x.csv" (save_timeseries ["a"] fetchOne 0 0 1) "x.csv" =
      export_to (fun _ => some ["junk"]) "y.csv" (save_timeseries ["a"] fetchOne 0 0 1) "y.csv" :=
  c9_deterministic_output ["a"] fetchOne 0 0 1 (fun _ => none) (fun _ => some ["junk"])
    "x.csv" "y.csv" (by decide)

/-- Claim C6 counterexample: a chunk response holding series for b and a, in
that order, merges to a table with column order ["b","a"] — the response-dict
order — even though the requested key list was ["a","b"]: the merge iterates
`r.json().keys()`, not the input key list. -/
theorem c6_column_order_counterexample :
    (get_timeseries_merge [("b", [(100, "2.0"), (200, "3.0")]), ("a", [(100, "1.0")])]).cols
      = ["b", "a"]
    ∧ ["b", "a"] ≠ ["a", "b"] := by decide

/-- Claim C6 (amended): the merge of one chunk is a full outer join on the
timestamp key whose column order follows the response mapping's key order
(the requested key list only shapes the request and the later `to_csv` column
selection); in particular, for response data {a: [(100,1.0)],
b: [(100,2.0),(200,3.0)]} in that order, the merged table has exactly the
rows (100, a=1.0, b=2.0) and (200, a=absent, b=3.0), in that order. -/
theorem c6_outer_join_merge :
    (∀ resp : Resp, (get_timeseries_merge resp).cols = resp.map Prod.fst)
    ∧ get_timeseries_merge [("a", [(100, "1.0")]), ("b", [(100, "2.0"), (200, "3.0")])]
        = ⟨["a", "b"], [(100, [some "1.0", some "2.0"]), (200, [none, some "3.0"])]⟩ := by
  constructor
  · intro resp
    simp [get_timeseries_merge]
  · decide
